import Mathlib

/-!
Shallow embedding of the access-control-and-routing core of the Cashper
financial-services portal: the endpoint resolver (`src/cashper_frontend/src/config/api.js`
and the two `api.config` variants in the unnamed sources), the access guard
(`src/cashper_frontend/src/components/ProtectedRoute.jsx`) and the application
aggregator (dashboard service, `src/unnamed/part_003`).

JavaScript strings are modelled as Lean `String`; `localStorage.getItem` results
and the `VITE_API_URL` environment variable, both of which may be absent, are
modelled as `Option String` (`none` = JS `null` / `undefined`).
-/

namespace Cashper

/-- Boolean prefix test on character lists: `charsPrefixOf p s` is true iff
`p` is a prefix of `s`.  Used to model `String.prototype.startsWith`. -/
def charsPrefixOf : List Char → List Char → Bool
  | [], _ => true
  | _ :: _, [] => false
  | a :: as, b :: bs => decide (a = b) && charsPrefixOf as bs

/-- Model of JS `s.startsWith(p)`. -/
def jsStartsWith (s p : String) : Bool :=
  charsPrefixOf p.data s.data

/-- Model of dropping the first `n` UTF-16-ish units of a JS string
(used for the regex replacement in `getWebSocketUrl`). -/
def jsDrop (s : String) (n : Nat) : String :=
  String.mk (s.data.drop n)

/-- JS truthiness of a `string | null | undefined` value: `null`/`undefined`
and the empty string are falsy, every other string is truthy. -/
def jsTruthy : Option String → Bool
  | none => false
  | some s => decide (s ≠ "")

/-- JS `v || d` where `v : string | undefined`: returns `d` when `v` is
`undefined` or the (falsy) empty string, else `v`. -/
def jsOrUndef (v : Option String) (d : String) : String :=
  match v with
  | none => d
  | some s => if s = "" then d else s

/-- JS `s || d` for strings: returns `d` when `s` is the empty string. -/
def jsOrStr (s d : String) : String :=
  if s = "" then d else s

/-- The single deployment-time configuration input: the `VITE_API_URL`
environment variable, which may be unset (`none`), empty (`some ""`) or an
explicit origin. -/
structure DeploymentConfig where
  configuredOrigin : Option String

/-! ## `src/cashper_frontend/src/config/api.js` -/

namespace ConfigApi

/-- `export const API_ROOT = import.meta.env.VITE_API_URL || '';` -/
def API_ROOT (cfg : DeploymentConfig) : String :=
  jsOrUndef cfg.configuredOrigin ""

/-- `export const API_BASE_URL = \x7b API_ROOT \x7d/api;` (template literal). -/
def API_BASE_URL (cfg : DeploymentConfig) : String :=
  API_ROOT cfg ++ "/api"

/-- The nested `loans` object of `API_ENDPOINTS`. -/
structure LoanEndpoints where
  personal : String
  home : String
  business : String
  shortTerm : String

/-- The nested `insurance` object of `API_ENDPOINTS`. -/
structure InsuranceEndpoints where
  health : String
  motor : String
  term : String

/-- The nested `investments` object of `API_ENDPOINTS`. -/
structure InvestmentEndpoints where
  sip : String
  mutualFunds : String
  management : String

/-- The nested `tax` object of `API_ENDPOINTS`. -/
structure TaxEndpoints where
  personal : String
  business : String

/-- The nested `services` object of `API_ENDPOINTS`. -/
structure ServiceEndpoints where
  retail : String
  business : String
  corporate : String

/-- The shape of the `API_ENDPOINTS` object literal. -/
structure ApiEndpoints where
  admin : String
  auth : String
  dashboard : String
  loans : LoanEndpoints
  insurance : InsuranceEndpoints
  investments : InvestmentEndpoints
  tax : TaxEndpoints
  services : ServiceEndpoints
  settings : String
  notifications : String
  loanManagement : String

/-- `export const API_ENDPOINTS = \x7b ... \x7d;` — every entry is
`API_ROOT` followed by its `/api/...` path, exactly as in the source. -/
def API_ENDPOINTS (cfg : DeploymentConfig) : ApiEndpoints where
  admin := API_ROOT cfg ++ "/api/admin"
  auth := API_ROOT cfg ++ "/api/auth"
  dashboard := API_ROOT cfg ++ "/api/dashboard"
  loans :=
    { personal := API_ROOT cfg ++ "/api/personal-loan"
      home := API_ROOT cfg ++ "/api/home-loan"
      business := API_ROOT cfg ++ "/api/business-loan"
      shortTerm := API_ROOT cfg ++ "/api/short-term-loan" }
  insurance :=
    { health := API_ROOT cfg ++ "/api/health-insurance"
      motor := API_ROOT cfg ++ "/api/motor-insurance"
      term := API_ROOT cfg ++ "/api/term-insurance" }
  investments :=
    { sip := API_ROOT cfg ++ "/api/sip"
      mutualFunds := API_ROOT cfg ++ "/api/mutual-funds"
      management := API_ROOT cfg ++ "/api/investment-management" }
  tax :=
    { personal := API_ROOT cfg ++ "/api/personal-tax"
      business := API_ROOT cfg ++ "/api/business-tax" }
  services :=
    { retail := API_ROOT cfg ++ "/api/retail-services"
      business := API_ROOT cfg ++ "/api/business-services"
      corporate := API_ROOT cfg ++ "/api/corporate-services" }
  settings := API_ROOT cfg ++ "/api/settings"
  notifications := API_ROOT cfg ++ "/api/notifications"
  loanManagement := API_ROOT cfg ++ "/api/loan-management"

/-- Enumeration of every URL in the `API_ENDPOINTS` table (all 21 leaves). -/
def ApiEndpoints.allUrls (e : ApiEndpoints) : List String :=
  [e.admin, e.auth, e.dashboard,
   e.loans.personal, e.loans.home, e.loans.business, e.loans.shortTerm,
   e.insurance.health, e.insurance.motor, e.insurance.term,
   e.investments.sip, e.investments.mutualFunds, e.investments.management,
   e.tax.personal, e.tax.business,
   e.services.retail, e.services.business, e.services.corporate,
   e.settings, e.notifications, e.loanManagement]

/-- `baseUrl.replace(/^http/, 'ws')`: the anchored regex replaces a leading
`"http"` (if any) by `"ws"` and leaves the string unchanged otherwise. -/
def replaceLeadingHttpByWs (s : String) : String :=
  if jsStartsWith s "http" then "ws" ++ jsDrop s 4 else s

/-- `export const getWebSocketUrl = () => \x7b const baseUrl = API_ROOT ||
'http://localhost:8000'; return baseUrl.replace(/^http/, 'ws'); \x7d;` -/
def getWebSocketUrl (cfg : DeploymentConfig) : String :=
  replaceLeadingHttpByWs (jsOrStr (API_ROOT cfg) "http://localhost:8000")

/-- The shape of the `WS_ENDPOINTS` object literal. -/
structure WsEndpoints where
  adminDashboard : String

/-- `export const WS_ENDPOINTS = \x7b adminDashboard: ... \x7d;` -/
def WS_ENDPOINTS (cfg : DeploymentConfig) : WsEndpoints where
  adminDashboard := getWebSocketUrl cfg ++ "/api/admin/ws/dashboard"

end ConfigApi

/-! ## The shared `getAssetUrl` body of the two `api.config` variants
(`src/unnamed/part_001` and `src/unnamed/part_002`; their bodies are
character-for-character identical, differing only in which `API_BASE_URL`
they close over). -/

/-- The body of `getAssetUrl` as a function of the module's `API_BASE_URL`:
`if (!path) return ''; if (path.startsWith('http://') ||
path.startsWith('https://')) return path; const normalizedPath =
path.startsWith('/') ? path : '/' + path; return API_BASE_URL +
normalizedPath;` -/
def assetUrlFrom (base path : String) : String :=
  if path = "" then ""
  else if jsStartsWith path "http://" || jsStartsWith path "https://" then path
  else base ++ (if jsStartsWith path "/" then path else "/" ++ path)

/-! ### `src/unnamed/part_001` (the Docker-aware `api.config`) -/

namespace ApiConfigDocker

/-- `export const API_BASE_URL = envApiUrl !== undefined ? envApiUrl :
'http://localhost:8000';` — distinguishes unset from empty. -/
def API_BASE_URL (cfg : DeploymentConfig) : String :=
  match cfg.configuredOrigin with
  | none => "http://localhost:8000"
  | some s => s

/-- `export const API_ENDPOINT = \x7b API_BASE_URL \x7d/api;` -/
def API_ENDPOINT (cfg : DeploymentConfig) : String :=
  API_BASE_URL cfg ++ "/api"

/-- `export const getAssetUrl = (path) => ...` of `part_001`. -/
def getAssetUrl (cfg : DeploymentConfig) (path : String) : String :=
  assetUrlFrom (API_BASE_URL cfg) path

end ApiConfigDocker

/-! ### `src/unnamed/part_002` (the simple `api.config`) -/

namespace ApiConfigSimple

/-- `export const API_BASE_URL = import.meta.env.VITE_API_URL ||
'http://localhost:8000';` — `||` conflates unset and empty. -/
def API_BASE_URL (cfg : DeploymentConfig) : String :=
  jsOrUndef cfg.configuredOrigin "http://localhost:8000"

/-- `export const API_ENDPOINT = \x7b API_BASE_URL \x7d/api;` -/
def API_ENDPOINT (cfg : DeploymentConfig) : String :=
  API_BASE_URL cfg ++ "/api"

/-- `export const getAssetUrl = (path) => ...` of `part_002`. -/
def getAssetUrl (cfg : DeploymentConfig) (path : String) : String :=
  assetUrlFrom (API_BASE_URL cfg) path

end ApiConfigSimple

/-! ## Model of the JS runtime's `JSON.parse`

`ProtectedRoute.jsx` calls `JSON.parse` on the stored profile inside a
`try/catch`.  We model the parse as a total function returning
`Option JsonValue` (`none` = the JS exception).  The model covers JSON with
integer numerals and escape-free strings; escape sequences, fractional or
exponent numerals are conservatively rejected (`none`), so a successful parse
in the model is a successful parse in JS with the same value. -/

/-- Parsed JSON values (JS objects keep their fields in source order;
a duplicate key is resolved by `getField`, which takes the last binding,
matching `JSON.parse`). -/
inductive JsonValue where
  | null : JsonValue
  | bool (b : Bool) : JsonValue
  | num (n : Int) : JsonValue
  | str (s : String) : JsonValue
  | arr (elems : List JsonValue) : JsonValue
  | obj (fields : List (String × JsonValue)) : JsonValue

/-- Field lookup on a parsed JSON value: the field's value on an object
(the last binding of a duplicated key wins, as in `JSON.parse`), `none`
for an absent field or a non-object receiver.  This is only the
non-throwing part of JS property access; the full semantics, including the
`TypeError` thrown by a `null` receiver, is `jsGetProp` below. -/
def JsonValue.getField : JsonValue → String → Option JsonValue
  | .obj fields, key => fields.reverse.lookup key
  | _, _ => none

/-- JS property access `recv.key` as the guard's `try` block sees it:
a `null` receiver throws a `TypeError` (modelled as `Except.error ()`);
any other receiver yields the field's value, or `none` for `undefined`
(absent field, or auto-boxed primitive / array receiver). -/
def jsGetProp (recv : JsonValue) (key : String) : Except Unit (Option JsonValue) :=
  match recv with
  | JsonValue.null => Except.error ()
  | _ => Except.ok (recv.getField key)

/-- Skip JSON insignificant whitespace. -/
def skipWs : List Char → List Char
  | [] => []
  | c :: cs =>
    if c = ' ' ∨ c = '\n' ∨ c = '\t' ∨ c = '\r' then skipWs cs else c :: cs

/-- Parse the body of a JSON string after the opening quote, up to the
closing quote.  Escape sequences and control characters are rejected. -/
def parseStringBody : List Char → Option (String × List Char)
  | [] => none
  | c :: cs =>
    if c = '"' then some ("", cs)
    else if c = '\\' ∨ c.toNat < 32 then none
    else
      match parseStringBody cs with
      | some (s, rest) => some (String.mk (c :: s.data), rest)
      | none => none

/-- Split off a maximal run of decimal digits. -/
def takeDigits : List Char → List Char × List Char
  | [] => ([], [])
  | c :: cs =>
    if c.isDigit then
      let (ds, rest) := takeDigits cs
      (c :: ds, rest)
    else ([], c :: cs)

/-- Numeric value of a digit run. -/
def digitsToNat : List Char → Nat → Nat
  | [], acc => acc
  | c :: cs, acc => digitsToNat cs (acc * 10 + (c.toNat - '0'.toNat))

/-- Parse a JSON integer numeral starting at the given characters
(leading zeros, fractions and exponents rejected, as in JSON). -/
def parseNumber (input : List Char) : Option (JsonValue × List Char) :=
  let (neg, afterSign) :=
    match input with
    | '-' :: cs => (true, cs)
    | cs => (false, cs)
  match takeDigits afterSign with
  | ([], _) => none
  | (ds, rest) =>
    if ds.length > 1 ∧ ds.head? = some '0' then none
    else
      match rest with
      | '.' :: _ => none
      | 'e' :: _ => none
      | 'E' :: _ => none
      | _ =>
        let n : Int := Int.ofNat (digitsToNat ds 0)
        some (JsonValue.num (if neg then -n else n), rest)

mutual

/-- Fuel-indexed recursive-descent parser for a JSON value. -/
def parseValue : Nat → List Char → Option (JsonValue × List Char)
  | 0, _ => none
  | fuel + 1, input =>
    match skipWs input with
    | [] => none
    | c :: cs =>
      if c = '"' then
        match parseStringBody cs with
        | some (s, rest) => some (JsonValue.str s, rest)
        | none => none
      else if c = '{' then
        match skipWs cs with
        | '}' :: rest => some (JsonValue.obj [], rest)
        | cs2 =>
          match parseMembers fuel cs2 with
          | some (fields, rest) => some (JsonValue.obj fields, rest)
          | none => none
      else if c = '[' then
        match skipWs cs with
        | ']' :: rest => some (JsonValue.arr [], rest)
        | cs2 =>
          match parseElements fuel cs2 with
          | some (elems, rest) => some (JsonValue.arr elems, rest)
          | none => none
      else
        match c :: cs with
        | 't' :: 'r' :: 'u' :: 'e' :: rest => some (JsonValue.bool true, rest)
        | 'f' :: 'a' :: 'l' :: 's' :: 'e' :: rest => some (JsonValue.bool false, rest)
        | 'n' :: 'u' :: 'l' :: 'l' :: rest => some (JsonValue.null, rest)
        | other =>
          if c = '-' ∨ c.isDigit then parseNumber other else none

/-- Parse the members of a JSON object after `\x7b` (first key expected). -/
def parseMembers : Nat → List Char → Option (List (String × JsonValue) × List Char)
  | 0, _ => none
  | fuel + 1, input =>
    match skipWs input with
    | '"' :: cs =>
      match parseStringBody cs with
      | some (key, afterKey) =>
        match skipWs afterKey with
        | ':' :: afterColon =>
          match parseValue fuel afterColon with
          | some (v, afterVal) =>
            match skipWs afterVal with
            | ',' :: afterComma =>
              match parseMembers fuel afterComma with
              | some (fields, rest) => some ((key, v) :: fields, rest)
              | none => none
            | '}' :: rest => some ([(key, v)], rest)
            | _ => none
          | none => none
        | _ => none
      | none => none
    | _ => none

/-- Parse the elements of a JSON array after `[` (first element expected). -/
def parseElements : Nat → List Char → Option (List JsonValue × List Char)
  | 0, _ => none
  | fuel + 1, input =>
    match parseValue fuel input with
    | some (v, afterVal) =>
      match skipWs afterVal with
      | ',' :: afterComma =>
        match parseElements fuel afterComma with
        | some (elems, rest) => some (v :: elems, rest)
        | none => none
      | ']' :: rest => some ([v], rest)
      | _ => none
    | none => none

end

/-- Model of `JSON.parse(s)`: parse one value, allow trailing whitespace,
`none` models the thrown `SyntaxError`.  Each unit of fuel consumes at least
one input character, so `s.length + 1` units always suffice. -/
def parseJson (s : String) : Option JsonValue :=
  match parseValue (s.length + 1) s.data with
  | some (v, rest) => if skipWs rest = [] then some v else none
  | none => none

/-! ## `src/cashper_frontend/src/components/ProtectedRoute.jsx` -/

/-- The client-held session state: `localStorage.getItem('access_token')`
and `localStorage.getItem('user')`, each a string or `null` (`none`). -/
structure Principal where
  token : Option String
  profile : Option String

/-- The guard's outcome: render the protected element (`allow`) or render
`<Navigate to=dest replace />` (`redirect dest`). -/
inductive AccessDecision where
  | allow : AccessDecision
  | redirect (dest : String) : AccessDecision
deriving DecidableEq, Repr

/-- JS strict equality `v === true` where `v` is a possibly-`undefined`
property value: true only for the boolean `true` (never for `"true"`, `1`,
…). -/
def jsEqTrue : Option JsonValue → Bool
  | some (JsonValue.bool b) => b
  | _ => false

/-- JS strict equality `v === s` against a string literal `s`: true only
for a string value equal to `s`. -/
def jsEqStr : Option JsonValue → String → Bool
  | some (JsonValue.str t), s => t == s
  | _, _ => false

/-- `const ProtectedRoute = (\x7b element, isAdmin = false \x7d) => ...`:
redirect to `/login` when token or stored user is missing/empty; for admin
routes run the `try` block — parse the stored user, read
`userData.isAdmin` and `userData.role`, and redirect to `/dashboard`
unless `userData.isAdmin === true || userData.role === 'admin'` — and
redirect to `/login` when it throws (an unparseable profile, or the
`TypeError` of a property access on a parsed `null`); otherwise render the
element.  The two property reads of the `||` either both succeed or (on a
`null` receiver) throw at the first one, so matching on both at once is
faithful.  (When the profile is present it is a string, so the `getD`
default is never read.) -/
def ProtectedRoute (p : Principal) (isAdmin : Bool) : AccessDecision :=
  if !(jsTruthy p.token) || !(jsTruthy p.profile) then
    AccessDecision.redirect "/login"
  else if isAdmin then
    match parseJson (p.profile.getD "") with
    | some userData =>
      match jsGetProp userData "isAdmin", jsGetProp userData "role" with
      | Except.ok fAdmin, Except.ok fRole =>
        let isUserAdmin := jsEqTrue fAdmin || jsEqStr fRole "admin"
        if !isUserAdmin then AccessDecision.redirect "/dashboard"
        else AccessDecision.allow
      | _, _ => AccessDecision.redirect "/login"
    | none => AccessDecision.redirect "/login"
  else AccessDecision.allow

/-! ## Application Aggregator (`src/unnamed/part_003`, dashboard service) -/

/-- The error outcomes of an aggregator fetch. -/
inductive AggregatorError where
  | authError : AggregatorError
  | httpError (status : Nat) (body : String) : AggregatorError

/-- Modelled from the spec: the authenticated transport `apiRequest` and the
token reader `getAuthToken`, imported by `src/unnamed/part_003` from
`'./api'`, are not among the provided sources.  Per the spec (sections 4.2,
4.4 and 7): the token is the session store's token; a missing (null) token
at request time makes the call fail with `AuthError` *without issuing a
network request*; with a token present the request is issued to the given
URL with the bearer credential attached, and the backend's response (modelled
by the oracle `net`) is surfaced unmodified.  The second component of the
result lists the URLs of the network requests actually issued. -/
def apiRequest (net : String → Except AggregatorError JsonValue)
    (token : Option String) (url : String) :
    Except AggregatorError JsonValue × List String :=
  match token with
  | none => (Except.error AggregatorError.authError, [])
  | some _ => (net url, [url])

/-- `export const getUserApplications = async () => ...`: issue a GET to
`API_ENDPOINTS.dashboard + '/applications'` through `apiRequest` with the
session token as bearer credential; the `catch` block logs and rethrows, so
errors pass through unchanged and the response body is returned verbatim. -/
def getUserApplications (cfg : DeploymentConfig)
    (net : String → Except AggregatorError JsonValue) (p : Principal) :
    Except AggregatorError JsonValue × List String :=
  apiRequest net p.token ((ConfigApi.API_ENDPOINTS cfg).dashboard ++ "/applications")

/-! ## Helper lemmas -/

theorem strData_append (s t : String) : (s ++ t).data = s.data ++ t.data := by
  cases s
  cases t
  rfl

theorem charsPrefixOf_append (p s t : List Char) (h : charsPrefixOf p s = true) :
    charsPrefixOf p (s ++ t) = true := by
  induction p generalizing s with
  | nil => rfl
  | cons a as ih =>
    cases s with
    | nil => simp [charsPrefixOf] at h
    | cons b bs =>
      simp only [charsPrefixOf, List.cons_append, Bool.and_eq_true, decide_eq_true_eq] at h ⊢
      exact ⟨h.1, ih bs h.2⟩

theorem jsStartsWith_append (s t p : String) (h : jsStartsWith s p = true) :
    jsStartsWith (s ++ t) p = true := by
  unfold jsStartsWith at h ⊢
  rw [strData_append]
  exact charsPrefixOf_append _ _ _ h

theorem cons_of_charsPrefixOf_single (c : Char) (l : List Char)
    (h : charsPrefixOf [c] l = true) : ∃ rest, l = c :: rest := by
  cases l with
  | nil => simp [charsPrefixOf] at h
  | cons b bs =>
    simp only [charsPrefixOf, Bool.and_eq_true, decide_eq_true_eq] at h
    exact ⟨bs, by rw [h.1]⟩

theorem jsStartsWith_head_slash (s : String) (rest : List Char)
    (h : s.data = '/' :: rest) :
    jsStartsWith s "http://" = false ∧ jsStartsWith s "https://" = false ∧
      jsStartsWith s "/" = true := by
  unfold jsStartsWith
  rw [h]
  exact ⟨rfl, rfl, rfl⟩

theorem ne_empty_of_jsStartsWith_http (y : String)
    (h : jsStartsWith y "http://" = true ∨ jsStartsWith y "https://" = true) :
    y ≠ "" := by
  intro he
  subst he
  rcases h with h | h <;> exact Bool.noConfusion h

theorem assetUrlFrom_empty (base : String) : assetUrlFrom base "" = "" := by
  unfold assetUrlFrom
  rw [if_pos rfl]

theorem assetUrlFrom_absolute (base x : String)
    (h : jsStartsWith x "http://" = true ∨ jsStartsWith x "https://" = true) :
    assetUrlFrom base x = x := by
  unfold assetUrlFrom
  rw [if_neg (ne_empty_of_jsStartsWith_http x h), if_pos (Bool.or_eq_true _ _ |>.mpr h)]

theorem assetUrlFrom_idem (base path : String)
    (hb : base = "" ∨ jsStartsWith base "http://" = true ∨
      jsStartsWith base "https://" = true) :
    assetUrlFrom base (assetUrlFrom base path) = assetUrlFrom base path := by
  rcases eq_or_ne path "" with hp0 | hp0
  · rw [hp0, assetUrlFrom_empty, assetUrlFrom_empty]
  by_cases habs : (jsStartsWith path "http://" || jsStartsWith path "https://") = true
  · have h' := Bool.or_eq_true _ _ |>.mp habs
    rw [assetUrlFrom_absolute base path h', assetUrlFrom_absolute base path h']
  have hres : assetUrlFrom base path =
      base ++ (if jsStartsWith path "/" = true then path else "/" ++ path) := by
    unfold assetUrlFrom
    rw [if_neg hp0, if_neg habs]
  -- the normalized path starts with a slash
  have hnorm : ∃ rest,
      (if jsStartsWith path "/" = true then path else "/" ++ path).data = '/' :: rest := by
    by_cases hsl : jsStartsWith path "/" = true
    · rw [if_pos hsl]
      exact cons_of_charsPrefixOf_single '/' path.data hsl
    · rw [if_neg hsl, strData_append]
      exact ⟨path.data, rfl⟩
  obtain ⟨rest, hrest⟩ := hnorm
  rcases hb with hb | hb
  · -- same-origin base: the produced URL is the normalized path itself
    subst hb
    have hid : ("" : String) ++ (if jsStartsWith path "/" = true then path else "/" ++ path) =
        (if jsStartsWith path "/" = true then path else "/" ++ path) := by
      apply String.ext
      rw [strData_append]
      rfl
    rw [hres, hid]
    obtain ⟨hh1, hh2, hh3⟩ := jsStartsWith_head_slash _ rest hrest
    unfold assetUrlFrom
    rw [if_neg (by intro he; rw [he] at hrest; exact List.noConfusion hrest),
      if_neg (by rw [hh1, hh2]; exact Bool.noConfusion), if_pos hh3, hid]
  · -- remote http(s) base: the produced URL is itself absolute
    have hy : jsStartsWith (base ++ (if jsStartsWith path "/" = true then path else "/" ++ path))
        "http://" = true ∨
        jsStartsWith (base ++ (if jsStartsWith path "/" = true then path else "/" ++ path))
        "https://" = true := by
      rcases hb with hb | hb
      · exact Or.inl (jsStartsWith_append _ _ _ hb)
      · exact Or.inr (jsStartsWith_append _ _ _ hb)
    rw [hres, assetUrlFrom_absolute base _ hy]

theorem jsEqTrue_iff (o : Option JsonValue) :
    jsEqTrue o = true ↔ o = some (JsonValue.bool true) := by
  cases o with
  | none => simp [jsEqTrue]
  | some v => cases v <;> simp [jsEqTrue]

theorem jsEqStr_iff (o : Option JsonValue) (s : String) :
    jsEqStr o s = true ↔ o = some (JsonValue.str s) := by
  cases o with
  | none => simp [jsEqStr]
  | some v => cases v <;> simp [jsEqStr]

theorem parseJson_empty : parseJson "" = none := rfl

theorem ne_empty_of_parseJson_some (u : String) (v : JsonValue)
    (h : parseJson u = some v) : u ≠ "" := by
  intro he
  rw [he, parseJson_empty] at h
  exact Option.noConfusion h

theorem jsGetProp_of_ne_null (v : JsonValue) (key : String)
    (hv : v ≠ JsonValue.null) :
    jsGetProp v key = Except.ok (v.getField key) := by
  cases v with
  | null => exact absurd rfl hv
  | bool b => rfl
  | num n => rfl
  | str s => rfl
  | arr es => rfl
  | obj fs => rfl

theorem ne_null_of_getField_some (v : JsonValue) (key : String) (w : JsonValue)
    (h : v.getField key = some w) : v ≠ JsonValue.null := by
  intro hv
  rw [hv] at h
  exact Option.noConfusion h

/-- Reduction of the guard on a present token and profile: the truthiness
checks pass and the decision is the admin branch of the source. -/
theorem ProtectedRoute_some (t u : String) (ht : t ≠ "") (hu : u ≠ "")
    (adm : Bool) :
    ProtectedRoute ⟨some t, some u⟩ adm =
      (if adm then
        match parseJson u with
        | some userData =>
          match jsGetProp userData "isAdmin", jsGetProp userData "role" with
          | Except.ok fAdmin, Except.ok fRole =>
            if !(jsEqTrue fAdmin || jsEqStr fRole "admin")
            then AccessDecision.redirect "/dashboard"
            else AccessDecision.allow
          | _, _ => AccessDecision.redirect "/login"
        | none => AccessDecision.redirect "/login"
      else AccessDecision.allow) := by
  unfold ProtectedRoute
  simp only [jsTruthy, Option.getD_some, ht, hu, ne_eq, not_false_eq_true,
    decide_True, Bool.not_true, Bool.or_self, Bool.false_eq_true, if_false]

/-- On an admin route, a parsed profile that is JSON `null` makes both
property reads throw, and the catch redirects to the login page. -/
theorem ProtectedRoute_admin_null (t u : String) (ht : t ≠ "")
    (hp : parseJson u = some JsonValue.null) :
    ProtectedRoute ⟨some t, some u⟩ true = AccessDecision.redirect "/login" := by
  have hu := ne_empty_of_parseJson_some u _ hp
  rw [ProtectedRoute_some t u ht hu true, hp]
  rfl

/-- On an admin route, a parsed profile other than JSON `null` reduces the
guard to the strict `isAdmin`/`role` check of the source. -/
theorem ProtectedRoute_admin_object (t u : String) (v : JsonValue)
    (ht : t ≠ "") (hp : parseJson u = some v) (hv : v ≠ JsonValue.null) :
    ProtectedRoute ⟨some t, some u⟩ true =
      (if !(jsEqTrue (v.getField "isAdmin") ||
          jsEqStr (v.getField "role") "admin")
       then AccessDecision.redirect "/dashboard"
       else AccessDecision.allow) := by
  have hu := ne_empty_of_parseJson_some u v hp
  rw [ProtectedRoute_some t u ht hu true, hp]
  show (match jsGetProp v "isAdmin", jsGetProp v "role" with
    | Except.ok fAdmin, Except.ok fRole =>
      if !(jsEqTrue fAdmin || jsEqStr fRole "admin")
      then AccessDecision.redirect "/dashboard"
      else AccessDecision.allow
    | _, _ => AccessDecision.redirect "/login") = _
  rw [jsGetProp_of_ne_null v "isAdmin" hv, jsGetProp_of_ne_null v "role" hv]

/-! ## Claims -/

/-- C1 counterexample: with the origin override unset, `API_ROOT` in
`config/api.js` is the empty string — not the local-development default —
so the endpoint table is built without the `http://localhost:8000` prefix
(the admin endpoint, for instance, is the origin-relative `/api/admin`). -/
theorem unsetOrigin_counterexample :
    ConfigApi.API_ROOT ⟨none⟩ ≠ "http://localhost:8000" ∧
    ConfigApi.API_ROOT ⟨none⟩ = "" ∧
    (ConfigApi.API_ENDPOINTS ⟨none⟩).admin = "/api/admin" ∧
    (ConfigApi.API_ENDPOINTS ⟨none⟩).admin ≠ "http://localhost:8000/api/admin" :=
  ⟨by decide, rfl, rfl, by decide⟩

/-- C1 (amended): with the origin override unset, the WebSocket origin does
resolve to the local-development default with its scheme swapped to `ws`
(`ws://localhost:8000`), and the Docker-aware config module resolves its
HTTP origin to `http://localhost:8000`; but the endpoint table of
`config/api.js` is built from `API_ROOT = ""` (its `||` fallback conflates
unset with empty), so every one of its endpoint URLs is an origin-relative
`/api/...` path rather than one prefixed by the local default. -/
theorem unsetOrigin_resolution :
    ConfigApi.getWebSocketUrl ⟨none⟩ = "ws://localhost:8000" ∧
    (ConfigApi.WS_ENDPOINTS ⟨none⟩).adminDashboard =
      "ws://localhost:8000/api/admin/ws/dashboard" ∧
    ConfigApi.API_ROOT ⟨none⟩ = "" ∧
    ((ConfigApi.API_ENDPOINTS ⟨none⟩).allUrls.all
      fun u => jsStartsWith u "/api") = true ∧
    ApiConfigDocker.API_BASE_URL ⟨none⟩ = "http://localhost:8000" :=
  ⟨rfl, rfl, rfl, by decide, rfl⟩

/-- C3 counterexample: with the origin override set to the empty string,
the derived WebSocket endpoint is `ws://localhost:8000/api/admin/ws/dashboard`
— it carries a scheme and host (it starts with `ws://`, not with `/`), so not
every produced URL is origin-relative. -/
theorem sameOrigin_ws_counterexample :
    (ConfigApi.WS_ENDPOINTS ⟨some ""⟩).adminDashboard =
      "ws://localhost:8000/api/admin/ws/dashboard" ∧
    jsStartsWith (ConfigApi.WS_ENDPOINTS ⟨some ""⟩).adminDashboard "ws://" = true ∧
    jsStartsWith (ConfigApi.WS_ENDPOINTS ⟨some ""⟩).adminDashboard "/" = false :=
  ⟨rfl, rfl, rfl⟩

/-- C3 (amended): with the origin override set to the empty string, every
HTTP endpoint of the table is origin-relative (a `/api/...` path), but the
derived WebSocket endpoint is not: `getWebSocketUrl`'s `||` fallback treats
the empty origin as unconfigured, producing the absolute
`ws://localhost:8000/api/admin/ws/dashboard`. -/
theorem sameOrigin_relative_amended :
    ((ConfigApi.API_ENDPOINTS ⟨some ""⟩).allUrls.all
      fun u => jsStartsWith u "/api") = true ∧
    (ConfigApi.WS_ENDPOINTS ⟨some ""⟩).adminDashboard =
      "ws://localhost:8000/api/admin/ws/dashboard" :=
  ⟨by decide, rfl⟩

/-- C8: with the origin override `https://api.example.com`, the admin
dashboard WebSocket endpoint is exactly
`wss://api.example.com/api/admin/ws/dashboard` (the leading `http` of the
configured origin is replaced by `ws`, turning `https` into `wss`). -/
theorem wsEndpoint_https_origin :
    (ConfigApi.WS_ENDPOINTS ⟨some "https://api.example.com"⟩).adminDashboard =
      "wss://api.example.com/api/admin/ws/dashboard" := rfl

/-- C4 counterexample: with the configured origin `foo` (a string without an
`http` scheme — the config is unvalidated, per the spec any string is
allowed), `getAssetUrl` is not idempotent: it maps `a` to `foo/a` and
`foo/a` to `foo/foo/a`. -/
theorem getAssetUrl_idem_counterexample :
    ApiConfigDocker.getAssetUrl ⟨some "foo"⟩
        (ApiConfigDocker.getAssetUrl ⟨some "foo"⟩ "a") ≠
      ApiConfigDocker.getAssetUrl ⟨some "foo"⟩ "a" ∧
    ApiConfigDocker.getAssetUrl ⟨some "foo"⟩ "a" = "foo/a" ∧
    ApiConfigDocker.getAssetUrl ⟨some "foo"⟩ "foo/a" = "foo/foo/a" :=
  ⟨by decide, rfl, rfl⟩

/-- C4 (amended): `getAssetUrl` (both config variants) is idempotent for
every string input provided the configured origin is unset, empty, or starts
with `http://` or `https://` — that is, whenever the module's base URL is
empty or absolute; an origin with no `http` scheme breaks idempotence. -/
theorem getAssetUrl_idem_amended (cfg : DeploymentConfig) (path : String)
    (h : cfg.configuredOrigin = none ∨ cfg.configuredOrigin = some "" ∨
      ∃ s, cfg.configuredOrigin = some s ∧
        (jsStartsWith s "http://" = true ∨ jsStartsWith s "https://" = true)) :
    ApiConfigDocker.getAssetUrl cfg (ApiConfigDocker.getAssetUrl cfg path) =
      ApiConfigDocker.getAssetUrl cfg path ∧
    ApiConfigSimple.getAssetUrl cfg (ApiConfigSimple.getAssetUrl cfg path) =
      ApiConfigSimple.getAssetUrl cfg path := by
  have hlocal : jsStartsWith "http://localhost:8000" "http://" = true := rfl
  have hdock : ApiConfigDocker.API_BASE_URL cfg = "" ∨
      jsStartsWith (ApiConfigDocker.API_BASE_URL cfg) "http://" = true ∨
      jsStartsWith (ApiConfigDocker.API_BASE_URL cfg) "https://" = true := by
    rcases h with h | h | ⟨s, hs, hpre⟩
    · have hb : ApiConfigDocker.API_BASE_URL cfg = "http://localhost:8000" := by
        unfold ApiConfigDocker.API_BASE_URL
        rw [h]
      rw [hb]
      exact Or.inr (Or.inl hlocal)
    · have hb : ApiConfigDocker.API_BASE_URL cfg = "" := by
        unfold ApiConfigDocker.API_BASE_URL
        rw [h]
      exact Or.inl hb
    · have hb : ApiConfigDocker.API_BASE_URL cfg = s := by
        unfold ApiConfigDocker.API_BASE_URL
        rw [hs]
      rw [hb]
      exact Or.inr hpre
  have hsimple : ApiConfigSimple.API_BASE_URL cfg = "" ∨
      jsStartsWith (ApiConfigSimple.API_BASE_URL cfg) "http://" = true ∨
      jsStartsWith (ApiConfigSimple.API_BASE_URL cfg) "https://" = true := by
    rcases h with h | h | ⟨s, hs, hpre⟩
    · have hb : ApiConfigSimple.API_BASE_URL cfg = "http://localhost:8000" := by
        unfold ApiConfigSimple.API_BASE_URL jsOrUndef
        rw [h]
      rw [hb]
      exact Or.inr (Or.inl hlocal)
    · have hb : ApiConfigSimple.API_BASE_URL cfg = "http://localhost:8000" := by
        unfold ApiConfigSimple.API_BASE_URL jsOrUndef
        rw [h]
        rfl
      rw [hb]
      exact Or.inr (Or.inl hlocal)
    · have hb : ApiConfigSimple.API_BASE_URL cfg = s := by
        unfold ApiConfigSimple.API_BASE_URL jsOrUndef
        rw [hs]
        exact if_neg (ne_empty_of_jsStartsWith_http s hpre)
      rw [hb]
      exact Or.inr hpre
  exact ⟨assetUrlFrom_idem _ path hdock, assetUrlFrom_idem _ path hsimple⟩

/-- C4 witness: idempotence at the remote-origin configuration
`https://api.example.com` on the path `uploads/x.png`. -/
theorem getAssetUrl_idem_amended_witness :
    ApiConfigDocker.getAssetUrl ⟨some "https://api.example.com"⟩
        (ApiConfigDocker.getAssetUrl ⟨some "https://api.example.com"⟩ "uploads/x.png") =
      ApiConfigDocker.getAssetUrl ⟨some "https://api.example.com"⟩ "uploads/x.png" :=
  (getAssetUrl_idem_amended ⟨some "https://api.example.com"⟩ "uploads/x.png"
    (Or.inr (Or.inr ⟨"https://api.example.com", rfl, Or.inr rfl⟩))).1

/-- C9: for every deployment configuration and both config variants,
`getAssetUrl` maps the empty string to the empty string and returns any
input starting with `http://` or `https://` unchanged. -/
theorem getAssetUrl_base_cases (cfg : DeploymentConfig) (x : String)
    (h : jsStartsWith x "http://" = true ∨ jsStartsWith x "https://" = true) :
    ApiConfigDocker.getAssetUrl cfg "" = "" ∧
    ApiConfigDocker.getAssetUrl cfg x = x ∧
    ApiConfigSimple.getAssetUrl cfg "" = "" ∧
    ApiConfigSimple.getAssetUrl cfg x = x :=
  ⟨assetUrlFrom_empty _, assetUrlFrom_absolute _ x h,
   assetUrlFrom_empty _, assetUrlFrom_absolute _ x h⟩

/-- C9 witness: `getAssetUrl` leaves `https://cdn/x.png` unchanged under the
unset-origin configuration. -/
theorem getAssetUrl_base_cases_witness :
    ApiConfigDocker.getAssetUrl ⟨none⟩ "https://cdn/x.png" = "https://cdn/x.png" :=
  (getAssetUrl_base_cases ⟨none⟩ "https://cdn/x.png" (Or.inr rfl)).2.1

/-- C6: a principal with a missing (null) token is never treated as
authenticated, whatever the stored profile and whether the required
privilege is AUTHENTICATED (`adm = false`) or ADMIN (`adm = true`): the
guard always redirects to the login page. -/
theorem nullToken_never_authenticated (profile : Option String) (adm : Bool) :
    ProtectedRoute ⟨none, profile⟩ adm = AccessDecision.redirect "/login" := rfl

/-- C2 counterexample: a principal with token `t` and the malformed profile
string `(brace)not json`, evaluated with the AUTHENTICATED requirement, is
*allowed* — not redirected to the login page: the guard only checks the
presence of the two stored values on non-admin routes and never parses the
profile there. -/
theorem malformed_auth_counterexample :
    ProtectedRoute ⟨some "t", some "\x7bnot json"⟩ false = AccessDecision.allow ∧
    ProtectedRoute ⟨some "t", some "\x7bnot json"⟩ false ≠
      AccessDecision.redirect "/login" :=
  ⟨rfl, by decide⟩

/-- C2 (amended): a malformed profile fails closed only under the ADMIN
requirement: with a non-empty token and the unparseable profile
`(brace)not json`, the guard redirects to the login page when `isAdmin` is
required, but under the plain AUTHENTICATED requirement it never parses the
profile and allows access — unlike an absent session. -/
theorem malformed_failClosed_admin_only (t : String) (ht : t ≠ "") :
    ProtectedRoute ⟨some t, some "\x7bnot json"⟩ true =
      AccessDecision.redirect "/login" ∧
    ProtectedRoute ⟨some t, some "\x7bnot json"⟩ false = AccessDecision.allow := by
  have hu : ("\x7bnot json" : String) ≠ "" := by decide
  rw [ProtectedRoute_some t _ ht hu true, ProtectedRoute_some t _ ht hu false]
  have hpj : parseJson "\x7bnot json" = none := rfl
  rw [hpj]
  exact ⟨rfl, rfl⟩

/-- C2 witness: the amended claim at the token `t`. -/
theorem malformed_failClosed_admin_only_witness :
    ProtectedRoute ⟨some "t", some "\x7bnot json"⟩ true =
      AccessDecision.redirect "/login" :=
  (malformed_failClosed_admin_only "t" (by decide)).1

/-- C7: for every principal with a non-empty token and a well-formed
(parseable) profile, the guard under the ADMIN requirement allows access
when the profile's `role` is `admin`, and redirects to the dashboard when
the `role` is `user` and the profile is not otherwise elevated (its
`isAdmin` field is not the boolean `true`). -/
theorem adminGuard_role_decision (t u : String) (v : JsonValue)
    (ht : t ≠ "") (hp : parseJson u = some v) :
    (v.getField "role" = some (JsonValue.str "admin") →
      ProtectedRoute ⟨some t, some u⟩ true = AccessDecision.allow) ∧
    (v.getField "role" = some (JsonValue.str "user") →
      v.getField "isAdmin" ≠ some (JsonValue.bool true) →
      ProtectedRoute ⟨some t, some u⟩ true =
        AccessDecision.redirect "/dashboard") := by
  constructor
  · intro hrole
    have hv := ne_null_of_getField_some v "role" _ hrole
    rw [ProtectedRoute_admin_object t u v ht hp hv]
    have hstr : jsEqStr (v.getField "role") "admin" = true :=
      (jsEqStr_iff _ _).mpr hrole
    simp [hstr]
  · intro hrole hflag
    have hv := ne_null_of_getField_some v "role" _ hrole
    rw [ProtectedRoute_admin_object t u v ht hp hv]
    have h1 : jsEqTrue (v.getField "isAdmin") = false := by
      cases hb : jsEqTrue (v.getField "isAdmin") with
      | false => rfl
      | true => exact absurd ((jsEqTrue_iff _).mp hb) hflag
    have h2 : jsEqStr (v.getField "role") "admin" = false := by
      rw [hrole]
      rfl
    simp [h1, h2]

/-- C7 witness: token `t` with profile `role: admin` is allowed on an admin
route. -/
theorem adminGuard_role_decision_witness :
    ProtectedRoute ⟨some "t", some "\x7b\"role\":\"admin\"\x7d"⟩ true =
      AccessDecision.allow :=
  (adminGuard_role_decision "t" "\x7b\"role\":\"admin\"\x7d"
    (JsonValue.obj [("role", JsonValue.str "admin")]) (by decide) rfl).1 rfl

/-- C10: for every authenticated principal with a well-formed profile, the
guard on an admin route allows access exactly when the profile's `isAdmin`
field is the boolean `true` or its `role` field is the string `admin`
(strict equality: a truthy non-boolean `isAdmin` such as the string
`"true"` does not elevate); every non-elevated profile other than the JSON
literal `null` — on which the property access itself throws and the catch
redirects to the login page — is redirected to the dashboard. -/
theorem elevated_iff_strict_admin (t u : String) (v : JsonValue)
    (ht : t ≠ "") (hp : parseJson u = some v) :
    (ProtectedRoute ⟨some t, some u⟩ true = AccessDecision.allow ↔
      (v.getField "isAdmin" = some (JsonValue.bool true) ∨
       v.getField "role" = some (JsonValue.str "admin"))) ∧
    (v ≠ JsonValue.null →
      (ProtectedRoute ⟨some t, some u⟩ true = AccessDecision.allow ∨
       ProtectedRoute ⟨some t, some u⟩ true =
         AccessDecision.redirect "/dashboard")) := by
  by_cases hv : v = JsonValue.null
  · subst hv
    rw [ProtectedRoute_admin_null t u ht hp]
    refine ⟨⟨fun hc => absurd hc (by decide), fun hc => ?_⟩,
      fun hv2 => absurd rfl hv2⟩
    rcases hc with hc | hc <;> exact Option.noConfusion hc
  · have hiff : (jsEqTrue (v.getField "isAdmin") ||
        jsEqStr (v.getField "role") "admin") = true ↔
        (v.getField "isAdmin" = some (JsonValue.bool true) ∨
         v.getField "role" = some (JsonValue.str "admin")) := by
      rw [Bool.or_eq_true, jsEqTrue_iff, jsEqStr_iff]
    rw [ProtectedRoute_admin_object t u v ht hp hv]
    by_cases hcond : (jsEqTrue (v.getField "isAdmin") ||
        jsEqStr (v.getField "role") "admin") = true
    · rw [hcond]
      exact ⟨⟨fun _ => hiff.mp hcond, fun _ => rfl⟩, fun _ => Or.inl rfl⟩
    · have hf : (jsEqTrue (v.getField "isAdmin") ||
          jsEqStr (v.getField "role") "admin") = false :=
        Bool.eq_false_iff.mpr hcond
      rw [hf]
      refine ⟨⟨fun hc => absurd hc (by decide), fun hc => ?_⟩,
        fun _ => Or.inr rfl⟩
      have := hiff.mpr hc
      rw [hf] at this
      exact Bool.noConfusion this

/-- C10 witness: a profile whose `isAdmin` is the *string* `"true"` and
whose role is `user` is not elevated: the guard redirects to the
dashboard. -/
theorem elevated_iff_strict_admin_witness :
    ProtectedRoute ⟨some "t",
        some "\x7b\"isAdmin\":\"true\",\"role\":\"user\"\x7d"⟩ true =
      AccessDecision.redirect "/dashboard" := by
  have h := elevated_iff_strict_admin "t"
    "\x7b\"isAdmin\":\"true\",\"role\":\"user\"\x7d"
    (JsonValue.obj [("isAdmin", JsonValue.str "true"), ("role", JsonValue.str "user")])
    (by decide) rfl
  rcases h.2 (fun hh => JsonValue.noConfusion hh) with hall | hred
  · exfalso
    have e1 : (JsonValue.obj [("isAdmin", JsonValue.str "true"),
        ("role", JsonValue.str "user")]).getField "isAdmin" =
        some (JsonValue.str "true") := rfl
    have e2 : (JsonValue.obj [("isAdmin", JsonValue.str "true"),
        ("role", JsonValue.str "user")]).getField "role" =
        some (JsonValue.str "user") := rfl
    rcases h.1.mp hall with hc | hc
    · rw [e1] at hc
      exact JsonValue.noConfusion (Option.some.inj hc)
    · rw [e2] at hc
      have hc2 := Option.some.inj hc
      injection hc2 with hstr
      exact absurd hstr (by decide)
  · exact hred

/-- C5: the aggregator's `getUserApplications`, called for a principal with
a null token, fails with `AuthError` and issues no network request, for
every deployment configuration and every backend behavior. -/
theorem nullToken_noNetwork (cfg : DeploymentConfig)
    (net : String → Except AggregatorError JsonValue) (p : Principal)
    (h : p.token = none) :
    getUserApplications cfg net p =
      (Except.error AggregatorError.authError, ([] : List String)) := by
  unfold getUserApplications apiRequest
  rw [h]

/-- C5 witness: the null-token failure at the unset-origin configuration
with a backend that would answer 500 to anything. -/
theorem nullToken_noNetwork_witness :
    getUserApplications ⟨none⟩
        (fun _ => Except.error (AggregatorError.httpError 500 "")) ⟨none, none⟩ =
      (Except.error AggregatorError.authError, ([] : List String)) :=
  nullToken_noNetwork ⟨none⟩
    (fun _ => Except.error (AggregatorError.httpError 500 "")) ⟨none, none⟩ rfl

end Cashper
